import Mathlib

/-!
# Verification of the nockchain-wallet-http core against its specification

This file gives a shallow embedding, in Lean 4, of the core logic of the
nockchain-wallet-http repository (the signed-command envelope protocol, the
simple-spend validation and coin-selection logic, the note parser and the
swap settlement state machine), together with theorems settling the frozen
claims about that code.

Modelling conventions, used throughout:

* JavaScript numbers are modelled as rationals (`Rat`).  Every finite IEEE-754
  double is a rational, and none of the verified properties depends on
  rounding; `NaN` is represented by `Option.none` at the points where the code
  can produce it (`Number(...)` conversions, `parseFloat`).
* JavaScript strings are modelled as Lean `String`s.  The repository only ever
  manipulates ASCII data, for which `String.length` agrees with JavaScript's
  UTF-16 `length`.
* Ed25519 is modelled as an ideal signature scheme: a detached signature is a
  token recording exactly the signed byte string and the signer's public key,
  and verification succeeds precisely when the presented message equals the
  signed byte string and the presented key equals the signer's key.  This is
  the standard correctness + EUF-CMA idealisation of `tweetnacl`'s
  `nacl.sign` / `nacl.sign.detached.verify`.
* base58 transport of signatures is modelled by an encode/decode pair of
  functions; `bs58.decode` failures are the `none` results of the decoder.
  Public keys are handled as opaque (already base58-encoded) strings, which is
  how the authorization allow-list stores them.
* External effects (wallet process output, RPC block queries, `Date.now()`,
  `Math.random()`) are inputs of the modelled functions: each function takes
  the data the effect would have produced.
-/

/- `Rat.add`, `Rat.mul` and `Rat.sub` are `@[irreducible]` in Batteries, which
only blocks elaborator-side unfolding; making them semireducible lets closed
rational computations be settled by `decide` (the kernel evaluates `Nat.gcd`
on literals natively). -/
attribute [local semireducible] Rat.add Rat.mul Rat.sub

/-! ## JavaScript values and JSON serialization -/

/-- A JavaScript value as far as the repository's dynamic (`any`) parameters
are concerned: `jsUndefined` is JavaScript `undefined`, the other constructors are
the JSON universe.  Numbers are rationals (see the module docstring). -/
inductive JVal where
  | jsUndefined
  | jnull
  | jbool (b : Bool)
  | jnum (q : Rat)
  | jstr (s : String)
  | jarr (xs : List JVal)
  | jobj (fs : List (String × JVal))
deriving Repr

/-- Property lookup on an object field list (first match wins; JavaScript
objects cannot contain duplicate keys, so the order is irrelevant). -/
def findField : List (String × JVal) → String → Option JVal
  | [], _ => none
  | (k, v) :: fs, key => if k = key then some v else findField fs key

/-- Property access `v[key]`, as used by the code on already-parsed values:
on an object it is field lookup (absent field gives `undefined`); on every
non-object, non-null value it gives `undefined`.  Access on `null` throws in
JavaScript; the one place the code can perform it is modelled explicitly in
`processSignedCommand` below, and `jget` is never applied to `jnull` there. -/
def jget : JVal → String → JVal
  | .jobj fs, key => (findField fs key).getD .jsUndefined
  | _, _ => .jsUndefined

/-- JavaScript truthiness of a value (`undefined`, `null`, `false`, `0` and
`""` are falsy; `NaN` cannot occur in a parsed JSON value). -/
def jTruthy : JVal → Bool
  | .jsUndefined => false
  | .jnull => false
  | .jbool b => b
  | .jnum q => q != 0
  | .jstr s => s != ""
  | .jarr _ => true
  | .jobj _ => true

/-- Is the value JSON `null`?  (Used to model the property-access TypeError
on `null`.) -/
def JVal.isNull : JVal → Bool
  | .jnull => true
  | _ => false

/-- `Number(v)` / arithmetic coercion, on the fragment the repository
exercises: numbers, `null` and booleans convert, everything else is modelled
as `NaN` (`none`).  (JavaScript additionally parses numeric strings and
unwraps single-element arrays; the repository never feeds such values through
a conversion whose outcome matters to the claims, and every claim below is
settled on inputs where this fragment is exact.) -/
def toNumber : JVal → Option Rat
  | .jnum q => some q
  | .jnull => some 0
  | .jbool b => some (if b then 1 else 0)
  | _ => none

/-- `Array.isArray` + element extraction. -/
def asArray : JVal → Option (List JVal)
  | .jarr xs => some xs
  | _ => none

/-- `typeof v === "object" && v` (a truthy value of object type: objects and
arrays; `null` is excluded by the truthiness check the code performs first). -/
def isObjectLike : JVal → Bool
  | .jarr _ => true
  | .jobj _ => true
  | _ => false

/-- Render a rational the way JavaScript renders the numbers the repository
serializes (they are all integers; non-integers fall back to `Rat`'s
rendering). -/
def ratStr (q : Rat) : String :=
  if q.den = 1 then toString q.num else toString q

/-- JSON string quoting.  The repository only serializes ASCII strings free
of `"`, `\` and control characters, for which quoting is exactly
surrounding with `"`; the three escape cases are still handled. -/
def jsonEscapeChar (c : Char) : String :=
  if c = '"' then "\\\""
  else if c = '\\' then "\\\\"
  else if c = '\n' then "\\n"
  else String.singleton c

/-- JSON-quote a string. -/
def jsonQuote (s : String) : String :=
  "\"" ++ String.join (s.data.map jsonEscapeChar) ++ "\""

/-- Join rendered JSON members with commas. -/
def joinComma : List String → String
  | [] => ""
  | [x] => x
  | x :: xs => x ++ "," ++ joinComma xs

mutual
/-- Nesting depth of a value (computable, structurally recursive); used as the
recursion budget of the serializer. -/
def jdepth : JVal → Nat
  | .jarr xs => jdepthList xs + 1
  | .jobj fs => jdepthFields fs + 1
  | _ => 1
termination_by structural v => v

def jdepthList : List JVal → Nat
  | [] => 0
  | x :: xs => max (jdepth x) (jdepthList xs)
termination_by structural xs => xs

def jdepthFields : List (String × JVal) → Nat
  | [] => 0
  | (_, v) :: fs => max (jdepth v) (jdepthFields fs)
termination_by structural fs => fs
end

/-- The body of `JSON.stringify(value, replacer?)` (ECMA-262
`SerializeJSONProperty`), written with an explicit recursion-depth budget
`fuel` so that the definition is structurally recursive and computes by
reduction.  `serialize` below instantiates `fuel` with the value's nesting
depth, so the `fuel = 0` branch is unreachable.

Semantics modelled, following ECMA-262:
* with no replacer, object members are serialized in property order;
* with an array replacer, the replacer acts at *every* object level as both
  an allow-list and an ordering: exactly the replacer's keys are serialized,
  in the replacer's order, skipping keys the object does not have;
* object members whose value is `undefined` are skipped; `undefined` array
  elements serialize as `null`. -/
def serValF (repl : Option (List String)) : Nat → JVal → String
  | 0, _ => ""
  | fuel + 1, v =>
    match v with
    | .jsUndefined => "null"
    | .jnull => "null"
    | .jbool b => cond b "true" "false"
    | .jnum q => ratStr q
    | .jstr s => jsonQuote s
    | .jarr xs => "[" ++ joinComma (xs.map (serValF repl fuel)) ++ "]"
    | .jobj fs =>
      match repl with
      | none =>
        "\x7b" ++ joinComma (fs.filterMap (fun kv =>
          match kv.2 with
          | .jsUndefined => none
          | w => some (jsonQuote kv.1 ++ ":" ++ serValF repl fuel w))) ++ "\x7d"
      | some keys =>
        "\x7b" ++ joinComma (keys.filterMap (fun k =>
          match findField fs k with
          | none => none
          | some .jsUndefined => none
          | some w => some (jsonQuote k ++ ":" ++ serValF repl fuel w))) ++ "\x7d"

/-- `JSON.stringify(v)` (`repl = none`) and `JSON.stringify(v, keys)`
(`repl = some keys`). -/
def serialize (repl : Option (List String)) (v : JVal) : String :=
  serValF repl (jdepth v) v

/-- Lexicographic comparison of strings by character code, the comparison
JavaScript's default `Array.sort` applies to strings. -/
def charListLe : List Char → List Char → Bool
  | [], _ => true
  | _ :: _, [] => false
  | c :: cs, d :: ds =>
    if c.toNat < d.toNat then true
    else if d.toNat < c.toNat then false
    else charListLe cs ds

/-- String comparison by code units. -/
def strLe (a b : String) : Bool := charListLe a.data b.data

/-- Insertion of a string into a `≤`-sorted list (JavaScript's default
`Array.sort` comparison on strings is lexicographic by code unit, which for
the ASCII keys involved agrees with `String.le`). -/
def insString (s : String) : List String → List String
  | [] => [s]
  | x :: xs => if strLe s x then s :: x :: xs else x :: insString s xs

/-- `Array.prototype.sort()` on strings. -/
def sortStrings (l : List String) : List String :=
  l.foldr insString []

/-! ## The signed-command envelope (sendor module, part_001)

`SignedCommand`, `CommandRequest`, `createSignedCommand`, `verifySignature`,
`isAuthorizedKey`, `isValidTimestamp`, `verifyCommandSignature` and
`processSignedCommand`. -/

/-- The envelope object `{ action, params, timestamp, nonce }` built by
`createSignedCommand`.  `timestamp` is `Math.floor(Date.now() / 1000)` and
`nonce` is the random string, both inputs of the model. -/
structure SignedCommand where
  action : String
  params : JVal
  timestamp : Rat
  nonce : String

/-- The envelope as the JavaScript object literal of `createSignedCommand`,
in its insertion (property) order. -/
def SignedCommand.toJVal (c : SignedCommand) : JVal :=
  .jobj [("action", .jstr c.action), ("params", c.params),
         ("timestamp", .jnum c.timestamp), ("nonce", .jstr c.nonce)]

/-- `Object.keys(signedCommand)`, in insertion order. -/
def commandKeys : List String := ["action", "params", "timestamp", "nonce"]

/-- An ideal detached Ed25519 signature: the token records the exact byte
string that was signed and the signer's public key. -/
structure SigData where
  signedMsg : String
  signerPk : String
deriving Repr, DecidableEq

/-- A signing keypair; the secret key is elided and represented by the public
key it determines (the model never forges, matching EUF-CMA). -/
structure KeyPair where
  pub : String

/-- The wire request `{ msg, sig, publicKey }`.  All three fields are the
strings the HTTP layer delivers; a request body missing a field delivers the
empty string, which the code's truthiness check treats identically. -/
structure CommandRequest where
  msg : String
  sig : String
  publicKey : String

/-- `verifySignature(msg, sig, publicKey)`: base58-decode the signature
(`decodeSig`; decode failure is caught and returns `false`), then run
`nacl.sign.detached.verify`, which in the ideal model succeeds exactly when
the presented message is the signed byte string and the key matches. -/
def verifySignature (decodeSig : String → Option SigData)
    (msg sig publicKey : String) : Bool :=
  match decodeSig sig with
  | some d => d.signedMsg == msg && d.signerPk == publicKey
  | none => false

/-- `isAuthorizedKey(publicKey)`: an empty allow-list admits every key. -/
def isAuthorizedKey (authorizedKeys : List String) (publicKey : String) : Bool :=
  authorizedKeys.isEmpty || authorizedKeys.contains publicKey

/-- `isValidTimestamp(timestamp, windowMinutes = 5)` evaluated at server time
`now` (seconds): `Math.abs(now - timestamp) <= windowMinutes * 60`. -/
def isValidTimestamp (now timestamp : Rat) (windowMinutes : Rat := 5) : Bool :=
  |now - timestamp| ≤ windowMinutes * 60

/-- `createSignedCommand(action, params)`: builds the envelope, signs
`JSON.stringify(signedCommand, Object.keys(signedCommand).sort())` — the
*sorted-key* serialization, in which the replacer array also filters every
nested object down to the keys `action`, `nonce`, `params`, `timestamp` —
but places the *insertion-order* serialization `JSON.stringify(signedCommand)`
in `msg`.  `encodeSig` is base58 encoding of the detached signature;
`nowSec` and `nonce` stand for `Date.now()` and `Math.random()`. -/
def createSignedCommand (encodeSig : SigData → String) (kp : KeyPair)
    (nowSec : Rat) (nonce : String) (action : String) (params : JVal) :
    CommandRequest :=
  let cmd : SignedCommand :=
    { action := action
      params := if jTruthy params then params else .jobj []
      timestamp := nowSec
      nonce := nonce }
  let signedBytes := serialize (some (sortStrings commandKeys)) cmd.toJVal
  { msg := serialize none cmd.toJVal
    sig := encodeSig { signedMsg := signedBytes, signerPk := kp.pub }
    publicKey := kp.pub }

/-- `verifyCommandSignature(request)`. -/
def verifyCommandSignature (decodeSig : String → Option SigData)
    (authorizedKeys : List String) (r : CommandRequest) : Bool × Bool :=
  (verifySignature decodeSig r.msg r.sig r.publicKey,
   isAuthorizedKey authorizedKeys r.publicKey)

/-- A concrete base58 signature encoder used to close theorems: the signed
bytes and key joined by `#` (a character that cannot occur in either for the
inputs used). -/
def encSigDemo (d : SigData) : String := d.signedMsg ++ "#" ++ d.signerPk

/-- Split a character list at each occurrence of a separator character. -/
def splitChar (sep : Char) : List Char → List (List Char)
  | [] => [[]]
  | c :: cs =>
    let rest := splitChar sep cs
    if c = sep then [] :: rest
    else
      match rest with
      | [] => [[c]]
      | piece :: pieces => (c :: piece) :: pieces

/-- Decoder inverting `encSigDemo` on its range. -/
def decSigDemo (s : String) : Option SigData :=
  match splitChar '#' s.data with
  | [m, p] => some { signedMsg := String.mk m, signerPk := String.mk p }
  | _ => none

/-- The request `createSignedCommand('list-notes', {})` would produce at
timestamp 1700000000 with nonce `abc123def` — the exact call `getAllNotes`
makes on every invocation. -/
def listNotesRequest : CommandRequest :=
  createSignedCommand encSigDemo { pub := "PK1" } 1700000000 "abc123def"
    "list-notes" (.jobj [])

/-! ## processSignedCommand -/

/-- Environment of `processSignedCommand`: base58 signature decoding, the
configured allow-list, `JSON.parse` (total model: `none` is a parse throw),
and the server clock. -/
structure ProcCtx where
  decodeSig : String → Option SigData
  authorizedKeys : List String
  parseJson : String → Option JVal
  now : Rat

/-- Outcome of the validation pipeline of `processSignedCommand`:
`rejected e` is an early `{ success: false, error: e }` return, and
`accepted cmd` means all six checks passed and control reached
`parseAndBuildCommand` / `executeWalletCommand` with the parsed envelope
(whose own results are outside this model's boundary). -/
inductive ProcOutcome where
  | rejected (error : String)
  | accepted (cmd : JVal)

/-- The error of an outcome, if it is a rejection. -/
def ProcOutcome.errorMsg : ProcOutcome → Option String
  | .rejected e => some e
  | .accepted _ => none

/-- The message of the `TypeError` thrown by `signedCommand.action` when
`msg` parses to JSON `null`; it is caught by the function's outer
`try`/`catch` and surfaced as the result's `error`.  (The literal text is
runtime-dependent; only its distinctness from the six check messages below
matters, which holds for every JavaScript engine's wording.) -/
def nullAccessError : String := "Cannot read properties of null"

/-- The required-fields test `signedCommand.action && signedCommand.timestamp`
(both properties truthy). -/
def reqFieldsOk (cmd : JVal) : Bool :=
  jTruthy (jget cmd "action") && jTruthy (jget cmd "timestamp")

/-- The freshness test `isValidTimestamp(signedCommand.timestamp)` (default
5-minute window; a non-numeric timestamp makes `Math.abs` produce `NaN`,
which fails the comparison). -/
def freshnessOk (ctx : ProcCtx) (cmd : JVal) : Bool :=
  match toNumber (jget cmd "timestamp") with
  | some q => isValidTimestamp ctx.now q
  | none => false

/-- `processSignedCommand(request)`, the guard pipeline of part_001 lines
521-566 (identical in part_000): missing-fields, signature, authorization,
JSON parse, required fields, freshness, in that order, each returning its own
error; a `msg` that parses to `null` crashes the required-fields check and is
surfaced through the outer catch. -/
def processSignedCommand (ctx : ProcCtx) (r : CommandRequest) : ProcOutcome :=
  if r.msg == "" || r.sig == "" || r.publicKey == "" then
    .rejected "Missing required fields: msg, sig, publicKey"
  else if !verifySignature ctx.decodeSig r.msg r.sig r.publicKey then
    .rejected "Invalid signature"
  else if !isAuthorizedKey ctx.authorizedKeys r.publicKey then
    .rejected "Unauthorized public key"
  else
    match ctx.parseJson r.msg with
    | none => .rejected "Invalid command format - must be valid JSON"
    | some cmd =>
      if cmd.isNull then
        .rejected nullAccessError
      else if !reqFieldsOk cmd then
        .rejected "Command must include action and timestamp"
      else if !freshnessOk ctx cmd then
        .rejected "Command timestamp is too old or too far in the future"
      else
        .accepted cmd

/-- The six checks of `processSignedCommand`, indexed in the order the code
applies them.  Checks 3-5 are stated totally (a check that is never reached
because an earlier stage failed is simply `false`). -/
def procCheck (ctx : ProcCtx) (r : CommandRequest) : Fin 6 → Bool
  | 0 => !(r.msg == "" || r.sig == "" || r.publicKey == "")
  | 1 => verifySignature ctx.decodeSig r.msg r.sig r.publicKey
  | 2 => isAuthorizedKey ctx.authorizedKeys r.publicKey
  | 3 => (ctx.parseJson r.msg).isSome
  | 4 => (ctx.parseJson r.msg).elim false reqFieldsOk
  | 5 => (ctx.parseJson r.msg).elim false (freshnessOk ctx)

/-- The distinct error message each check produces on failure. -/
def procErr : Fin 6 → String
  | 0 => "Missing required fields: msg, sig, publicKey"
  | 1 => "Invalid signature"
  | 2 => "Unauthorized public key"
  | 3 => "Invalid command format - must be valid JSON"
  | 4 => "Command must include action and timestamp"
  | 5 => "Command timestamp is too old or too far in the future"

/-! Sanity checks on the serializer (concrete computation). -/

example :
    serialize none (SignedCommand.toJVal
      { action := "a", params := .jobj [], timestamp := 7, nonce := "n" }) =
    "\x7b\"action\":\"a\",\"params\":\x7b\x7d,\"timestamp\":7,\"nonce\":\"n\"\x7d" := by
  decide

example :
    serialize (some (sortStrings commandKeys)) (SignedCommand.toJVal
      { action := "a", params := .jobj [("pubkey", .jstr "x")], timestamp := 7,
        nonce := "n" }) =
    "\x7b\"action\":\"a\",\"nonce\":\"n\",\"params\":\x7b\x7d,\"timestamp\":7\x7d" := by
  decide

example :
    verifySignature decSigDemo listNotesRequest.msg listNotesRequest.sig
      listNotesRequest.publicKey = false := by decide

/-! ## Simple-spend validation (part_000 `validateSimpleSpendParams`,
part_001 `validateSimpleSpendParamsWithUTXOs`) and coin selection
(`getNotesEqualTo`, `buildGiftsArray`).

Validation throws on the first offending value; this is modelled with
`Except String`, the error being the thrown message.  `array.map(cb)` with a
throwing callback is `mapIdxE`, which visits elements left to right and
propagates the first error. -/

/-- A validated recipient `{ count, address }`. -/
structure ValidatedRecipient where
  count : Rat
  address : String
deriving Repr, DecidableEq

/-- The validated result of part_000's `validateSimpleSpendParams`. -/
structure ValidatedSimpleSpendParams where
  recipients : List ValidatedRecipient
  gifts : List Rat
  names : List (List String)
  fee : Rat
deriving Repr, DecidableEq

/-- A parsed note/UTXO record (the completed `ParsedNote` of part_001; the
three required fields are always populated, the rest are optional). -/
structure ParsedNote where
  first_name : String
  last_name : String
  assets : Rat
  source_pubkey1 : Option String := none
  source_pubkey2 : Option String := none
  is_coinbase : Option Bool := none
  lock_m : Option Int := none
  lock_signers : Option (List String) := none
deriving Repr, DecidableEq

/-- The validated result of part_001's `validateSimpleSpendParamsWithUTXOs`
(the extended interface with optional UTXO selection data). -/
structure ValidatedSimpleSpendParamsWithUTXOs where
  recipients : List ValidatedRecipient
  gifts : List Rat
  names : List (List String)
  fee : Rat
  selectedNotes : Option (List ParsedNote) := none
  senderPubkey : JVal := .jsUndefined

/-- `array.map((x, i) => ...)` where the callback can throw: elements are
visited left to right and the first thrown error aborts the whole map. -/
def mapIdxE {α β : Type} (f : Nat → α → Except String β) : Nat → List α → Except String (List β)
  | _, [] => .ok []
  | i, x :: xs =>
    match f i x with
    | .error e => .error e
    | .ok y =>
      match mapIdxE f (i + 1) xs with
      | .error e => .error e
      | .ok ys => .ok (y :: ys)

/-- The base58 (Bitcoin) alphabet, exactly the character class of the
address regular expression `[1-9A-HJ-NP-Za-km-z]+`. -/
def base58Chars : List Char :=
  "123456789ABCDEFGHJKLMNPQRSTUVWXYZabcdefghijkmnopqrstuvwxyz".data

/-- Index of a character in a list (the digit value of a base58 char). -/
def idxOf (c : Char) : List Char → Option Nat
  | [] => none
  | d :: ds => if d = c then some 0 else (idxOf c ds).map (· + 1)

/-- Leading zero digits (leading `'1'` characters become leading zero bytes
in `bs58.decode`). -/
def countLeading0 : List Nat → Nat
  | [] => 0
  | v :: vs => if v = 0 then countLeading0 vs + 1 else 0

/-- Number of base-256 digits of `n` (there are at most `fuel` of them; the
fuel makes the recursion structural so that it computes by reduction). -/
def byteLenAux : Nat → Nat → Nat
  | 0, _ => 0
  | fuel + 1, n => if n = 0 then 0 else byteLenAux fuel (n / 256) + 1

/-- Length in bytes of the minimal big-endian representation of `n`. -/
def byteLen (n : Nat) : Nat := byteLenAux n n

/-- Length in bytes of `bs58.decode(s)`: the decoder produces one zero byte
per leading `'1'` plus the minimal big-endian representation of the base58
numeral's value; `none` if some character is outside the alphabet (the
decoder throws). -/
def bs58DecodeLen (s : String) : Option Nat :=
  match s.data.mapM (fun c => idxOf c base58Chars) with
  | none => none
  | some vals =>
    let n : Nat := vals.foldl (fun acc v => acc * 58 + v) 0
    some (countLeading0 vals + byteLen n)

/-- `isValidNockchainAddress` on a string value: truthy, length in
`[150, 156]`, base58 charset, decoded length in `[110, 115]` bytes. -/
def isValidAddressStr (s : String) : Bool :=
  if s = "" then false
  else if s.length < 150 || s.length > 156 then false
  else if !(s.data.all (fun c => (idxOf c base58Chars).isSome)) then false
  else
    match bs58DecodeLen s with
    | some len => decide (110 ≤ len ∧ len ≤ 115)
    | none => false

/-- `isValidNockchainAddress(address)` on an arbitrary value (non-strings
fail the `typeof` check). -/
def isValidNockchainAddress : JVal → Bool
  | .jstr s => isValidAddressStr s
  | _ => false

/-- The characters `sanitizeForBash` strips: `; | & $ ` \ ' "`. -/
def bashDangerChars : List Char :=
  [';', '|', '&', '$', Char.ofNat 96, '\\', Char.ofNat 39, '"']

/-- JavaScript `\s` on the repository's ASCII data. -/
def isJsWhitespace (c : Char) : Bool :=
  c == ' ' || c == '\t' || c == '\n' || c == '\r'

/-- `replace(/\s+/g, ' ')`: collapse each whitespace run to one space.  The
flag records whether the previous character was part of a run. -/
def collapseWsAux : Bool → List Char → List Char
  | _, [] => []
  | prevWs, c :: cs =>
    if isJsWhitespace c then
      if prevWs then collapseWsAux true cs else ' ' :: collapseWsAux true cs
    else c :: collapseWsAux false cs

/-- `sanitizeForBash(input)`: strip shell metacharacters, collapse
whitespace, trim, truncate to 100 characters. -/
def sanitizeForBash (s : String) : String :=
  let cleaned := s.data.filter (fun c => !(bashDangerChars.contains c))
  let collapsed := collapseWsAux false cleaned
  let trimmed := ((collapsed.dropWhile (fun c => isJsWhitespace c)).reverse.dropWhile
    (fun c => isJsWhitespace c)).reverse
  String.mk (trimmed.take 100)

/-- Template-literal rendering of a value (only used inside error messages;
approximates JavaScript's `String(v)` on the data the code interpolates). -/
def jsDisplay : JVal → String
  | .jstr s => s
  | .jnum q => ratStr q
  | .jnull => "null"
  | .jsUndefined => "undefined"
  | .jbool b => cond b "true" "false"
  | .jarr _ => ""
  | .jobj _ => "[object Object]"

/-- Per-recipient validation (both validators share it verbatim): object
check, `Number.isInteger(count)` with range `[1, 999]` (no coercion), then
address validation. -/
def validateRecipientAt (i : Nat) (v : JVal) : Except String ValidatedRecipient :=
  if !(jTruthy v && isObjectLike v) then
    .error s!"Invalid recipient at index {i}: must be object with count and address"
  else
    match jget v "count" with
    | .jnum q =>
      if q.den = 1 ∧ 1 ≤ q ∧ q ≤ 999 then
        match jget v "address" with
        | .jstr a =>
          if isValidAddressStr a then .ok { count := q, address := a }
          else .error s!"Invalid address at recipient {i}: {a}"
        | w =>
          let d := jsDisplay w
          .error s!"Invalid address at recipient {i}: {d}"
      else .error s!"Invalid count at recipient {i}: must be integer between 1-999"
    | _ => .error s!"Invalid count at recipient {i}: must be integer between 1-999"

/-- Per-gift validation of part_000: `Number(gift)` finite and positive and
at most one billion. -/
def validateGiftAt (i : Nat) (v : JVal) : Except String Rat :=
  match toNumber v with
  | none => .error s!"Invalid gift at index {i}: must be positive number"
  | some q =>
    if q ≤ 0 then .error s!"Invalid gift at index {i}: must be positive number"
    else if q > 1000000000 then
      .error s!"Gift amount too large at index {i}: maximum 1 billion"
    else .ok q

/-- Per-gift validation of part_001's fallback path: finite and positive
only — it has no billion cap. -/
def validateGiftAtNoCap (i : Nat) (v : JVal) : Except String Rat :=
  match toNumber v with
  | none => .error s!"Invalid gift at index {i}: must be positive number"
  | some q =>
    if q ≤ 0 then .error s!"Invalid gift at index {i}: must be positive number"
    else .ok q

/-- Per-leaf name validation: string type, then non-empty after
sanitization. -/
def validateNameAt (i j : Nat) (v : JVal) : Except String String :=
  match v with
  | .jstr s =>
    let sanitized := sanitizeForBash s
    if sanitized = "" then
      .error s!"Invalid name at {i}[{j}]: cannot be empty after sanitization"
    else .ok sanitized
  | _ => .error s!"Invalid name at {i}[{j}]: must be string"

/-- Per-entry names validation: each entry an array of validated leaves. -/
def validateNamesAt (i : Nat) (v : JVal) : Except String (List String) :=
  match asArray v with
  | none => .error s!"Invalid name at index {i}: must be array of strings"
  | some xs => mapIdxE (validateNameAt i) 0 xs

/-- part_000 `validateSimpleSpendParams(params)`, checks in source order:
params object; recipients non-empty array of at most 50 validated
recipients; gifts non-empty array whose length equals the recipients length,
each gift positive and at most 1e9; names an array of validated name arrays;
fee an integer in `[1, 1000]` (after `Number(fee)` conversion). -/
def validateSimpleSpendParams (p : JVal) : Except String ValidatedSimpleSpendParams :=
  if !(jTruthy p && isObjectLike p) then .error "Invalid params: must be an object"
  else
    match asArray (jget p "recipients") with
    | none => .error "Invalid recipients: must be non-empty array"
    | some rs =>
      if rs.length = 0 then .error "Invalid recipients: must be non-empty array"
      else if rs.length > 50 then .error "Too many recipients: maximum 50 allowed"
      else
        match mapIdxE validateRecipientAt 0 rs with
        | .error e => .error e
        | .ok vrs =>
          match asArray (jget p "gifts") with
          | none => .error "Invalid gifts: must be non-empty array"
          | some gs =>
            if gs.length = 0 then .error "Invalid gifts: must be non-empty array"
            else if gs.length ≠ rs.length then
              .error s!"Gifts array length ({gs.length}) must match recipients length ({rs.length})"
            else
              match mapIdxE validateGiftAt 0 gs with
              | .error e => .error e
              | .ok vgs =>
                match asArray (jget p "names") with
                | none => .error "Invalid names: must be array"
                | some ns =>
                  match mapIdxE validateNamesAt 0 ns with
                  | .error e => .error e
                  | .ok vns =>
                    match toNumber (jget p "fee") with
                    | some f =>
                      if f.den = 1 ∧ 1 ≤ f ∧ f ≤ 1000 then
                        .ok { recipients := vrs, gifts := vgs, names := vns, fee := f }
                      else .error "Invalid fee: must be integer between 1-1000"
                    | none => .error "Invalid fee: must be integer between 1-1000"

/-! ### Coin selection -/

/-- Descending insertion of a note by `assets` (the comparator
`(a, b) => b.assets - a.assets`). -/
def insNoteDesc (n : ParsedNote) : List ParsedNote → List ParsedNote
  | [] => [n]
  | m :: ms => if m.assets ≤ n.assets then n :: m :: ms else m :: insNoteDesc n ms

/-- `availableNotes.sort((a, b) => b.assets - a.assets)`. -/
def sortNotesDesc (l : List ParsedNote) : List ParsedNote :=
  l.foldr insNoteDesc []

/-- The selection loop of `getNotesEqualTo`: push each note and accumulate
its assets, breaking as soon as the running total reaches the required
amount.  Returns the pushed notes and the final running total. -/
def selectLoop (required : Rat) (acc : Rat) : List ParsedNote → (List ParsedNote × Rat)
  | [] => ([], acc)
  | n :: ns =>
    let acc2 := acc + n.assets
    if required ≤ acc2 then ([n], acc2)
    else
      let r := selectLoop required acc2 ns
      (n :: r.1, r.2)

/-- The insufficient-balance message of `getNotesEqualTo`. -/
def insufficientMsg (required amountNock available : Rat) : String :=
  let r := ratStr required
  let a := ratStr amountNock
  let t := ratStr available
  s!"Insufficient balance. Required: {r} assets ({a} NOCK), Available: {t} assets"

/-- `getNotesEqualTo(amountNock)` with the wallet's available notes supplied
as an argument (the code fetches them with a signed `list-notes` command):
required assets are `amountNock * 65536 + 10`; the notes are sorted by
descending assets and greedily accumulated until the running total reaches
the requirement; if the loop exhausts the notes below the requirement the
call throws the insufficient-balance error. -/
def getNotesEqualTo (amountNock : Rat) (availableNotes : List ParsedNote) :
    Except String (List ParsedNote × Rat) :=
  let requiredAssets := amountNock * 65536 + 10
  let r := selectLoop requiredAssets 0 (sortNotesDesc availableNotes)
  if r.2 < requiredAssets then
    .error (insufficientMsg requiredAssets amountNock r.2)
  else .ok r

/-- The loop of `buildGiftsArray`: every note before the last contributes
its full value if it fits, otherwise the exact remaining need; the last note
contributes whatever remains. -/
def giftsLoop (remainingToSpend : Rat) : List ParsedNote → List Rat
  | [] => []
  | [_] => [remainingToSpend]
  | n :: ns =>
    if n.assets ≤ remainingToSpend then
      n.assets :: giftsLoop (remainingToSpend - n.assets) ns
    else
      remainingToSpend :: giftsLoop 0 ns

/-- `buildGiftsArray(selectedNotes, amountNock, fee)`. -/
def buildGiftsArray (selectedNotes : List ParsedNote) (amountNock fee : Rat) : List Rat :=
  giftsLoop (amountNock * 65536 + fee * 65536) selectedNotes

/-- part_001 `validateSimpleSpendParamsWithUTXOs(params)` with the wallet's
available notes supplied as an argument: recipients and fee are validated as
in part_000; when `amountNock !== undefined` the gifts and names are
*computed* from the selected UTXOs (with no length or cap constraint tied to
the recipients); otherwise the explicit gifts (positive, but with no billion
cap) and names are validated, with no length comparison against
recipients. -/
def validateSimpleSpendParamsWithUTXOs (availableNotes : List ParsedNote) (p : JVal) :
    Except String ValidatedSimpleSpendParamsWithUTXOs :=
  if !(jTruthy p && isObjectLike p) then .error "Invalid params: must be an object"
  else
    match asArray (jget p "recipients") with
    | none => .error "Invalid recipients: must be non-empty array"
    | some rs =>
      if rs.length = 0 then .error "Invalid recipients: must be non-empty array"
      else if rs.length > 50 then .error "Too many recipients: maximum 50 allowed"
      else
        match mapIdxE validateRecipientAt 0 rs with
        | .error e => .error e
        | .ok vrs =>
          match toNumber (jget p "fee") with
          | some f =>
            if ¬(f.den = 1 ∧ 1 ≤ f ∧ f ≤ 1000) then
              .error "Invalid fee: must be integer between 1-1000"
            else
              match jget p "amountNock" with
              | .jsUndefined =>
                match asArray (jget p "gifts") with
                | none => .error "Invalid gifts: must be non-empty array when amountNock not provided"
                | some gs =>
                  if gs.length = 0 then
                    .error "Invalid gifts: must be non-empty array when amountNock not provided"
                  else
                    match mapIdxE validateGiftAtNoCap 0 gs with
                    | .error e => .error e
                    | .ok vgs =>
                      match asArray (jget p "names") with
                      | none => .error "Invalid names: must be array when amountNock not provided"
                      | some ns =>
                        match mapIdxE validateNamesAt 0 ns with
                        | .error e => .error e
                        | .ok vns =>
                          .ok { recipients := vrs, gifts := vgs, names := vns, fee := f }
              | av =>
                match toNumber av with
                | none => .error "Invalid amountNock: must be positive number"
                | some amt =>
                  if amt ≤ 0 then .error "Invalid amountNock: must be positive number"
                  else
                    match getNotesEqualTo amt availableNotes with
                    | .error e => .error e
                    | .ok sel =>
                      .ok { recipients := vrs,
                            gifts := buildGiftsArray sel.1 amt f,
                            names := sel.1.map (fun n => [n.first_name, n.last_name]),
                            fee := f,
                            selectedNotes := some sel.1,
                            senderPubkey := jget p "senderPubkey" }
          | none => .error "Invalid fee: must be integer between 1-1000"

/-- A syntactically valid address: 155 base58 characters, decoding to 114
bytes. -/
def addr155 : String := String.mk (List.replicate 155 '2')

set_option maxRecDepth 40000 in
example : isValidAddressStr addr155 = true := by decide

set_option maxRecDepth 40000 in
example : isValidAddressStr (String.mk (List.replicate 149 '2')) = false := by decide

/-! ## The note parser (part_001 `parseNotesOutput`)

The parser splits the wallet's free-text output into blocks (one per
`details` marker), probes each block with five regular expressions, and keeps
a record only when the required fields were recognized.  The regular
expressions themselves are modelled as an arbitrary `NoteMatchers` bundle —
one function per `block.match(...)` call returning the capture groups — so
every theorem below holds for *every* matcher behaviour, the actual regular
expressions included. -/

/-- A note record while it is being assembled (`Partial<ParsedNote>`): every
field starts `undefined` (`none`).  For the numeric fields the outer `Option`
is assignedness and the inner `Option` is the `NaN` case of
`parseFloat` / `parseInt`. -/
structure PartialNote where
  first_name : Option String := none
  last_name : Option String := none
  assets : Option (Option Rat) := none
  source_pubkey1 : Option String := none
  source_pubkey2 : Option String := none
  is_coinbase : Option Bool := none
  lock_m : Option (Option Int) := none
  lock_signers : Option (List String) := none
deriving Repr, DecidableEq

/-- The capture groups of the five `block.match(...)` probes. -/
structure NoteMatchers where
  nameMatch : String → Option (String × String)
  assetsMatch : String → Option String
  sourceMatch : String → Option (String × String × String)
  lockMatch : String → Option String
  signersMatch : String → Option String

/-- `parseFloat` on the digit-string captures the parser feeds it: the
longest digit prefix, `NaN` (`none`) when there is none. -/
def parseFloatOpt (s : String) : Option Rat :=
  let ds := s.data.takeWhile (fun c => c.isDigit)
  if ds.isEmpty then none
  else some ((ds.foldl (fun acc c => acc * 10 + (c.toNat - 48)) 0 : Nat) : Rat)

/-- `parseInt`, same fragment. -/
def parseIntOpt (s : String) : Option Int :=
  let ds := s.data.takeWhile (fun c => c.isDigit)
  if ds.isEmpty then none
  else some ((ds.foldl (fun acc c => acc * 10 + (c.toNat - 48)) 0 : Nat) : Int)

/-- `parseAssetAmount(assetStr)`: strip the dots, then `parseFloat`. -/
def parseAssetAmount (s : String) : Option Rat :=
  parseFloatOpt (String.mk (s.data.filter (fun c => c ≠ '.')))

/-- `output.split(/(?=details)/g)`: cut the string immediately before every
occurrence of the marker (except at position 0, where the lookahead match is
empty and produces no leading piece). -/
def splitBeforeAux (needle : List Char) : List Char → List Char → List (List Char)
  | acc, [] => [acc.reverse]
  | acc, c :: rest =>
    if 0 < acc.length ∧ needle.isPrefixOf (c :: rest) then
      acc.reverse :: splitBeforeAux needle [c] rest
    else
      splitBeforeAux needle (c :: acc) rest

/-- The note blocks of an output string. -/
def noteBlocks (output : String) : List String :=
  (splitBeforeAux "details".data [] output.data).map String.mk

/-- `trim()` (JavaScript whitespace, ASCII fragment). -/
def jsTrim (l : List Char) : List Char :=
  ((l.dropWhile (fun c => isJsWhitespace c)).reverse.dropWhile
    (fun c => isJsWhitespace c)).reverse

/-- Assemble the `note` object of one block: each successful probe assigns
its fields, in the source's order. -/
def buildNote (m : NoteMatchers) (block : String) : PartialNote :=
  let n0 : PartialNote := {}
  let n1 :=
    match m.nameMatch block with
    | some fl => { n0 with first_name := some fl.1, last_name := some fl.2 }
    | none => n0
  let n2 :=
    match m.assetsMatch block with
    | some cap => { n1 with assets := some (parseAssetAmount cap) }
    | none => n1
  let n3 :=
    match m.sourceMatch block with
    | some st =>
      { n2 with source_pubkey1 := some st.1, source_pubkey2 := some st.2.1,
                is_coinbase := some (st.2.2 == "%.y") }
    | none => n2
  let n4 :=
    match m.lockMatch block with
    | some cap => { n3 with lock_m := some (parseIntOpt cap) }
    | none => n3
  match m.signersMatch block with
  | some cap => { n4 with lock_signers := some [cap] }
  | none => n4

/-- The final guard of part_001: `note.first_name && note.last_name &&
note.assets !== undefined` (the names must be truthy, i.e. assigned and
non-empty; the assets merely assigned — `NaN` is not `undefined`). -/
def noteGuard (n : PartialNote) : Bool :=
  (match n.first_name with | some s => s != "" | none => false)
  && (match n.last_name with | some s => s != "" | none => false)
  && n.assets.isSome

/-- part_001 `parseNotesOutput(output)`: split into blocks, skip blank
blocks, assemble each note, keep it only if the guard passes. -/
def parseNotesOutput (m : NoteMatchers) (output : String) : List PartialNote :=
  (noteBlocks output).foldr
    (fun block acc =>
      if jsTrim block.data = [] then acc
      else
        let note := buildNote m block
        if noteGuard note then note :: acc else acc)
    []

/-! ## The swap settlement state machine (api.ts `GET /swap/status/:swap_id`)

The handler mutates the looked-up `SwapTransaction` in two phases: a
note-snapshot phase (for `pending`/`unconfirmed` swaps) and a blockchain
confirmation phase (for `sent-pending` swaps, including a swap the first
phase just moved there).  All external observations — the signed `list-notes`
round trip, `getHeight`, `getTransactionsByBlockHeight` — are inputs
(`ChainEnv`); a `none` models the corresponding call failing (or, for
`listNotes`, returning an unusable result), which the code catches and
ignores. -/

/-- The status enumeration of `SwapTransaction` (`spent_pending`, used by
two filters elsewhere in api.ts, is not a value this state machine ever
stores). -/
inductive SwapStatus where
  | pending
  | unconfirmed
  | sentPending
  | sentConfirmed
  | failed
deriving Repr, DecidableEq

/-- An output of an on-chain transaction, as the RPC reports it. -/
structure TxOutput where
  address : String
  amount : Rat
deriving Repr, DecidableEq

/-- An on-chain transaction; `outputs = none` models a transaction object
without an outputs array. -/
structure BlockTx where
  id : String
  outputs : Option (List TxOutput) := none
deriving Repr, DecidableEq

/-- The registry entry (api.ts `SwapTransaction`). -/
structure SwapTransaction where
  swap_id : String
  recipient : String
  amount : Rat
  fee : Rat
  initial_block_height : Rat
  status : SwapStatus
  created_at : Rat
  updated_at : Rat
  notes_before : Option (List PartialNote) := none
  change_utxo : Option (List PartialNote) := none
  tx_id : Option String := none
  confirmed_block_height : Option Rat := none
  error : Option String := none
deriving Repr, DecidableEq

/-- The observations one status query makes. -/
structure ChainEnv where
  listNotes : Option (List PartialNote)
  height : Option Rat
  blockTxs : Rat → Option (List BlockTx)
  now : Rat

/-- JavaScript `===` on two possibly-undefined string fields
(`undefined === undefined` is `true`). -/
def jsUndefStrEq : Option String → Option String → Bool
  | none, none => true
  | some a, some b => a == b
  | _, _ => false

/-- JavaScript `===` on two possibly-undefined numeric fields
(`NaN === NaN` is `false`). -/
def jsNumFieldEq : Option (Option Rat) → Option (Option Rat) → Bool
  | none, none => true
  | some (some x), some (some y) => x == y
  | _, _ => false

/-- The triple match of the status handler: `currentNote.assets ===
oldNote.assets && currentNote.first_name === oldNote.first_name &&
currentNote.last_name === oldNote.last_name`. -/
def noteTripleEq (current old : PartialNote) : Bool :=
  jsNumFieldEq current.assets old.assets
  && jsUndefStrEq current.first_name old.first_name
  && jsUndefStrEq current.last_name old.last_name

/-- Phase one (api.ts lines 434-474): for a `pending`/`unconfirmed` swap
with a usable note listing and a non-empty `notes_before`, if some recorded
note no longer matches any current note, the swap becomes `sent-pending`,
`updated_at` is refreshed, and the notes that newly appeared are stored as
`change_utxo` (only when there is at least one). -/
def notePhase (env : ChainEnv) (swap : SwapTransaction) : SwapTransaction :=
  if swap.status = .pending ∨ swap.status = .unconfirmed then
    match env.listNotes with
    | none => swap
    | some currentNotes =>
      match swap.notes_before with
      | none => swap
      | some olds =>
        let oldNotesStillExist :=
          olds.all (fun o => currentNotes.any (fun c => noteTripleEq c o))
        if 0 < olds.length ∧ ¬oldNotesStillExist then
          let newNotes :=
            currentNotes.filter (fun c => !(olds.any (fun o => noteTripleEq o c)))
          { swap with
            status := .sentPending
            updated_at := env.now
            change_utxo :=
              if 0 < newNotes.length then some newNotes else swap.change_utxo }
        else swap
  else swap

/-- Does a transaction have an output matching the swap's recipient and
amount exactly? -/
def txMatches (recipient : String) (amount : Rat) (tx : BlockTx) : Bool :=
  match tx.outputs with
  | some outs => outs.any (fun o => o.address == recipient && o.amount == amount)
  | none => false

/-- The confirmation loop over the blocks to check: a failing block query is
skipped; the first block whose transactions contain a match confirms the
swap (recording `tx_id` and `confirmed_block_height`) and breaks. -/
def confirmLoop (env : ChainEnv) (swap : SwapTransaction) : List Rat → SwapTransaction
  | [] => swap
  | b :: bs =>
    match env.blockTxs b with
    | none => confirmLoop env swap bs
    | some txs =>
      match txs.find? (txMatches swap.recipient swap.amount) with
      | some tx =>
        { swap with
          status := .sentConfirmed
          tx_id := some tx.id
          confirmed_block_height := some b
          updated_at := env.now }
      | none => confirmLoop env swap bs

/-- Phase two (api.ts lines 477-537): for a `sent-pending` swap with a
usable height, check the current block — and the previous one, but only when
the height has moved past the initial height — for a confirming transaction;
absent a confirmation, `current_height - initial_block_height >= 3` times
the swap out as `failed`. -/
def confirmPhase (env : ChainEnv) (swap : SwapTransaction) : SwapTransaction :=
  if swap.status = .sentPending then
    match env.height with
    | none => swap
    | some h =>
      let blocksSince := h - swap.initial_block_height
      let blocksToCheck :=
        [h] ++ (if swap.initial_block_height < h then [h - 1] else [])
      let afterLoop := confirmLoop env swap blocksToCheck
      if 3 ≤ blocksSince ∧ afterLoop.status ≠ .sentConfirmed then
        { afterLoop with
          status := .failed
          error := some "Transaction not confirmed after 3 blocks"
          updated_at := env.now }
      else afterLoop
  else swap

/-- One full status query's effect on the entry: phase one, then phase
two. -/
def stepSwap (env : ChainEnv) (swap : SwapTransaction) : SwapTransaction :=
  confirmPhase env (notePhase env swap)

/-- Lookup in the swap registry (`swapTransactions.get(swap_id)`). -/
def regLookup : List (String × SwapTransaction) → String → Option SwapTransaction
  | [], _ => none
  | (k, s) :: rest, id => if k = id then some s else regLookup rest id

/-- In-place mutation of one registry entry (the handler mutates the object
the `Map` already holds). -/
def regSet : List (String × SwapTransaction) → String → SwapTransaction →
    List (String × SwapTransaction)
  | [], _, _ => []
  | (k, s) :: rest, id, s2 =>
    if k = id then (k, s2) :: rest else (k, s) :: regSet rest id s2

/-- The registry effect of `GET /swap/status/:swap_id`: an unknown id is a
pure 404; a known id has its entry stepped in place. -/
def getSwapStatusStep (env : ChainEnv) (reg : List (String × SwapTransaction))
    (swap_id : String) : List (String × SwapTransaction) :=
  match regLookup reg swap_id with
  | none => reg
  | some s => regSet reg swap_id (stepSwap env s)

/-! ## Concrete instances used by closed theorems and witnesses -/

/-- Projection: the error of a validation outcome. -/
def exceptErr {α : Type} : Except String α → Option String
  | .error e => some e
  | .ok _ => none

/-- Context for replaying `createSignedCommand`'s own request through
`processSignedCommand` (authorization open, parse irrelevant — the signature
check rejects first). -/
def c1ctx : ProcCtx :=
  { decodeSig := decSigDemo, authorizedKeys := [], parseJson := fun _ => none,
    now := 1700000000 }

/-- The envelope `createSignedCommand('list-notes', {})` builds in
`listNotesRequest`. -/
def c1cmd : SignedCommand :=
  { action := "list-notes", params := .jobj [], timestamp := 1700000000,
    nonce := "abc123def" }

/-- A parsed envelope with a stale timestamp. -/
def c2parsed : JVal := .jobj [("action", .jstr "list-notes"), ("timestamp", .jnum 100)]

/-- Context in which `"MSG"` carries a well-signed, authorized envelope whose
timestamp is far outside the freshness window. -/
def c2ctx : ProcCtx :=
  { decodeSig := decSigDemo
    authorizedKeys := ["PK1"]
    parseJson := fun s => if s = "MSG" then some c2parsed else none
    now := 100000 }

/-- The matching request. -/
def c2req : CommandRequest :=
  { msg := "MSG", sig := encSigDemo { signedMsg := "MSG", signerPk := "PK1" },
    publicKey := "PK1" }

/-- Context in which the message `"null"` is well-signed, authorized and
parses (to JSON `null`). -/
def c2nullCtx : ProcCtx :=
  { decodeSig := decSigDemo
    authorizedKeys := ["PK1"]
    parseJson := fun s => if s = "null" then some .jnull else none
    now := 100000 }

/-- The matching request. -/
def c2nullReq : CommandRequest :=
  { msg := "null", sig := encSigDemo { signedMsg := "null", signerPk := "PK1" },
    publicKey := "PK1" }

/-- A recipient that passes validation. -/
def recipOK : JVal := .jobj [("count", .jnum 1), ("address", .jstr addr155)]

/-- Simple-spend params with the given recipients, gifts and fee (names
empty, which both validators accept). -/
def mkSpendParams (recipients gifts : List JVal) (fee : JVal) : JVal :=
  .jobj [("recipients", .jarr recipients), ("gifts", .jarr gifts),
         ("names", .jarr []), ("fee", fee)]

/-- Params accepted by part_001's fallback validator although the gifts
neither match the recipients count nor respect the billion cap. -/
def c3badParams : JVal :=
  mkSpendParams [recipOK] [.jnum 2000000000, .jnum 7] (.jnum 10)

/-- Params accepted by part_000's validator. -/
def c3okParams : JVal := mkSpendParams [recipOK] [.jnum 5] (.jnum 10)

/-- The validated value part_000 produces for `c3okParams`. -/
def c3okValidated : ValidatedSimpleSpendParams :=
  { recipients := [{ count := 1, address := addr155 }], gifts := [5],
    names := [], fee := 10 }

/-- Fee-boundary params. -/
def feeParams (fee : JVal) : JVal := mkSpendParams [recipOK] [.jnum 5] fee

/-- Recipient-count boundary params (`n` identical valid recipients with a
matching number of gifts). -/
def nRecipParams (n : Nat) : JVal :=
  mkSpendParams (List.replicate n recipOK) (List.replicate n (.jnum 5)) (.jnum 10)

/-- Notes for the coin-selection witnesses. -/
def noteA : ParsedNote := { first_name := "fa", last_name := "la", assets := 100000 }

/-- Second, smaller note. -/
def noteB : ParsedNote := { first_name := "fb", last_name := "lb", assets := 40000 }

/-- A note recorded at swap initiation. -/
def c4oldNote : PartialNote :=
  { first_name := some "f1", last_name := some "l1", assets := some (some 100) }

/-- A note present in the later snapshot (a change UTXO). -/
def c4newNote : PartialNote :=
  { first_name := some "f2", last_name := some "l2", assets := some (some 40) }

/-- A pending swap whose initiation snapshot holds `c4oldNote`. -/
def c4swapPending : SwapTransaction :=
  { swap_id := "s1", recipient := "r1", amount := 5, fee := 1,
    initial_block_height := 100, status := .pending, created_at := 1,
    updated_at := 1, notes_before := some [c4oldNote] }

/-- An environment whose note listing no longer contains `c4oldNote`. -/
def c4envNotes : ChainEnv :=
  { listNotes := some [c4newNote], height := none, blockTxs := fun _ => none,
    now := 777 }

/-- A sent-pending swap still at its initial height. -/
def c4swapSent : SwapTransaction :=
  { swap_id := "s2", recipient := "r1", amount := 5, fee := 1,
    initial_block_height := 100, status := .sentPending, created_at := 1,
    updated_at := 1, notes_before := some [c4oldNote] }

/-- A transaction paying the swap's recipient its exact amount. -/
def c4txMatch : BlockTx :=
  { id := "t1", outputs := some [{ address := "r1", amount := 5 }] }

/-- An environment where the confirming transaction sits in the immediately
preceding block (99) while the chain height equals the swap's initial height
(100): the code only queries block 100. -/
def c4envPrev : ChainEnv :=
  { listNotes := none
    height := some 100
    blockTxs := fun b => if b == 99 then some [c4txMatch] else if b == 100 then some [] else none
    now := 888 }

/-- Matchers recognizing exactly the block `"details block1"`. -/
def c9m : NoteMatchers :=
  { nameMatch := fun b => if b = "details block1" then some ("f1", "l1") else none
    assetsMatch := fun b => if b = "details block1" then some "12.345" else none
    sourceMatch := fun _ => none
    lockMatch := fun _ => none
    signersMatch := fun _ => none }

/-- An output with one complete block and one block the matchers reject. -/
def c9out : String := "details block1details "

/-- The single note `parseNotesOutput c9m c9out` keeps. -/
def c9note : PartialNote :=
  { first_name := some "f1", last_name := some "l1", assets := some (some 12345) }

/-- A one-entry registry. -/
def c10reg : List (String × SwapTransaction) := [("s1", c4swapPending)]

/-- An environment for the registry witness. -/
def c10env : ChainEnv :=
  { listNotes := none, height := none, blockTxs := fun _ => none, now := 0 }

/-- Sum of the assets of a list of notes. -/
def sumAssets (l : List ParsedNote) : Rat := (l.map (fun n => n.assets)).sum

/-- Projection: the gifts of an accepted UTXO-aware validation. -/
def okGifts : Except String ValidatedSimpleSpendParamsWithUTXOs → Option (List Rat)
  | .ok v => some v.gifts
  | .error _ => none

/-- Projection: the recipient count of an accepted UTXO-aware validation. -/
def okRecipientCount : Except String ValidatedSimpleSpendParamsWithUTXOs → Option Nat
  | .ok v => some v.recipients.length
  | .error _ => none

/-- The fields of a registry entry the status handler never assigns:
`swap_id`, `recipient`, `amount`, `fee`, `created_at`,
`initial_block_height` and `notes_before`. -/
def sameCore (t s : SwapTransaction) : Prop :=
  t.swap_id = s.swap_id ∧ t.recipient = s.recipient ∧ t.amount = s.amount
  ∧ t.fee = s.fee ∧ t.created_at = s.created_at
  ∧ t.initial_block_height = s.initial_block_height
  ∧ t.notes_before = s.notes_before

/-! ## Helper lemmas -/

theorem mapIdxE_ok_length {α β : Type} (f : Nat → α → Except String β) :
    ∀ (i : Nat) (xs : List α) (ys : List β),
      mapIdxE f i xs = .ok ys → ys.length = xs.length := by
  intro i xs
  induction xs generalizing i with
  | nil => intro ys h; simp only [mapIdxE] at h; cases h; rfl
  | cons x xs ih =>
    intro ys h
    simp only [mapIdxE] at h
    split at h
    · exact absurd h (by simp)
    · split at h
      · exact absurd h (by simp)
      · rename_i y _ ys' hys
        cases h
        simp [ih _ _ hys]

theorem mapIdxE_ok_mem {α β : Type} (f : Nat → α → Except String β) :
    ∀ (i : Nat) (xs : List α) (ys : List β),
      mapIdxE f i xs = .ok ys → ∀ y ∈ ys, ∃ j x, x ∈ xs ∧ f j x = .ok y := by
  intro i xs
  induction xs generalizing i with
  | nil =>
    intro ys h
    simp only [mapIdxE] at h
    cases h
    intro y hy
    exact absurd hy (by simp)
  | cons x xs ih =>
    intro ys h
    simp only [mapIdxE] at h
    cases hfx : f i x with
    | error e => rw [hfx] at h; exact absurd h (by simp)
    | ok y =>
      rw [hfx] at h
      cases hrest : mapIdxE f (i + 1) xs with
      | error e => rw [hrest] at h; exact absurd h (by simp)
      | ok ys' =>
        rw [hrest] at h
        simp only [Except.ok.injEq] at h
        subst h
        intro z hz
        rcases List.mem_cons.1 hz with rfl | hz'
        · exact ⟨i, x, List.mem_cons_self .., hfx⟩
        · obtain ⟨j, w, hw, hfw⟩ := ih _ _ hrest z hz'
          exact ⟨j, w, List.mem_cons_of_mem _ hw, hfw⟩

/-! ## C1 -/

/-- **C1** (code bug): the round-trip law fails on the code.  The request
built by `createSignedCommand('list-notes', {})` — the exact call
`getAllNotes`, `getNotesByPubkey` and the swap endpoints make — does *not*
verify: `createSignedCommand` signs the sorted-key serialization
`JSON.stringify(cmd, Object.keys(cmd).sort())` but transmits the
insertion-order serialization `JSON.stringify(cmd)` as `msg`, and the two
byte strings differ, so `verifySignature` (and `verifyCommandSignature`, and
the signature stage of `processSignedCommand`) rejects the request. -/
theorem C1_roundtrip_fails :
    verifySignature decSigDemo listNotesRequest.msg listNotesRequest.sig
      listNotesRequest.publicKey = false
    ∧ (verifyCommandSignature decSigDemo [] listNotesRequest).1 = false
    ∧ (processSignedCommand c1ctx listNotesRequest).errorMsg = some "Invalid signature"
    ∧ serialize (some (sortStrings commandKeys)) c1cmd.toJVal ≠
        serialize none c1cmd.toJVal := by
  decide

/-! ## C7 -/

/-- **C7** (confirmed): `isValidTimestamp` accepts exactly the inclusive
symmetric window `|now - timestamp| ≤ windowMinutes * 60`; with the default
5-minute window, `now - 301` is rejected, `now` and the boundary `now - 300`
are accepted, and any timestamp more than 300 seconds in the future is
rejected. -/
theorem C7_freshness_window (now : Rat) :
    (∀ ts w : Rat, isValidTimestamp now ts w = true ↔ |now - ts| ≤ w * 60)
    ∧ isValidTimestamp now (now - 301) = false
    ∧ isValidTimestamp now now = true
    ∧ isValidTimestamp now (now - 300) = true
    ∧ (∀ d : Rat, 300 < d → isValidTimestamp now (now + d) = false) := by
  refine ⟨fun ts w => by simp [isValidTimestamp], ?_, ?_, ?_, fun d hd => ?_⟩
  · simp only [isValidTimestamp, decide_eq_false_iff_not, not_le]
    have : now - (now - 301) = 301 := by ring
    rw [this]
    rw [abs_of_pos (by norm_num)]
    norm_num
  · simp [isValidTimestamp]
  · simp only [isValidTimestamp, decide_eq_true_eq]
    have : now - (now - 300) = 300 := by ring
    rw [this, abs_of_pos (by norm_num)]
    norm_num
  · simp only [isValidTimestamp, decide_eq_false_iff_not, not_le]
    have : now - (now + d) = -d := by ring
    rw [this, abs_neg, abs_of_pos (by positivity)]
    linarith

/-- Witness for C7 at `now = 1000`: the future timestamp `1301` is
rejected. -/
theorem C7_witness : isValidTimestamp 1000 (1000 + 301) = false :=
  (C7_freshness_window 1000).2.2.2.2 301 (by norm_num)

/-! ## C2 -/

/-- **C2** (corrected): `processSignedCommand` applies its six checks in the
order missing-fields, signature, authorization, JSON parse, required fields
(action and timestamp truthy), freshness; it short-circuits on the first
failing check, and the six error messages are pairwise distinct — *except*
that a message parsing to JSON `null` (valid JSON with neither required
field) crashes the required-fields check with a TypeError that the outer
catch surfaces, instead of producing that check's error. -/
theorem C2_check_order :
    (∀ (ctx : ProcCtx) (r : CommandRequest) (i : Fin 6),
       (∀ v, ctx.parseJson r.msg = some v → v.isNull = false) →
       procCheck ctx r i = false →
       (∀ j : Fin 6, j < i → procCheck ctx r j = true) →
       (processSignedCommand ctx r).errorMsg = some (procErr i))
    ∧ (∀ (ctx : ProcCtx) (r : CommandRequest),
        procCheck ctx r 0 = true → procCheck ctx r 1 = true →
        procCheck ctx r 2 = true → ctx.parseJson r.msg = some .jnull →
        (processSignedCommand ctx r).errorMsg = some nullAccessError)
    ∧ Function.Injective procErr := by
  refine ⟨?_, ?_, by decide⟩
  · intro ctx r i hnn hf hp
    fin_cases i
    · simp only [procCheck] at hf
      have hf' : (r.msg == "" || r.sig == "" || r.publicKey == "") = true := by
        cases h : (r.msg == "" || r.sig == "" || r.publicKey == "") with
        | true => rfl
        | false => rw [h] at hf; simp at hf
      simp [processSignedCommand, ProcOutcome.errorMsg, procErr, hf']
    · have h0 := hp 0 (by decide)
      simp only [procCheck, Bool.not_eq_true'] at h0 hf
      simp [processSignedCommand, ProcOutcome.errorMsg, procErr, h0, hf]
    · have h0 := hp 0 (by decide)
      have h1 := hp 1 (by decide)
      simp only [procCheck, Bool.not_eq_true'] at h0 h1 hf
      simp [processSignedCommand, ProcOutcome.errorMsg, procErr, h0, h1, hf]
    · have h0 := hp 0 (by decide)
      have h1 := hp 1 (by decide)
      have h2 := hp 2 (by decide)
      simp only [procCheck, Bool.not_eq_true'] at h0 h1 h2 hf
      cases hpp : ctx.parseJson r.msg with
      | none =>
        simp [processSignedCommand, ProcOutcome.errorMsg, procErr, h0, h1, h2, hpp]
      | some v => rw [hpp] at hf; simp at hf
    · have h0 := hp 0 (by decide)
      have h1 := hp 1 (by decide)
      have h2 := hp 2 (by decide)
      have h3 := hp 3 (by decide)
      simp only [procCheck, Bool.not_eq_true'] at h0 h1 h2 h3 hf
      cases hpp : ctx.parseJson r.msg with
      | none => rw [hpp] at h3; simp at h3
      | some v =>
        rw [hpp] at hf
        simp only [Option.elim] at hf
        have hv := hnn v hpp
        simp [processSignedCommand, ProcOutcome.errorMsg, procErr, h0, h1, h2,
          hpp, hv, hf]
    · have h0 := hp 0 (by decide)
      have h1 := hp 1 (by decide)
      have h2 := hp 2 (by decide)
      have h4 := hp 4 (by decide)
      simp only [procCheck, Bool.not_eq_true'] at h0 h1 h2 h4 hf
      cases hpp : ctx.parseJson r.msg with
      | none => rw [hpp] at h4; simp at h4
      | some v =>
        rw [hpp] at hf h4
        simp only [Option.elim] at hf h4
        have hv := hnn v hpp
        simp [processSignedCommand, ProcOutcome.errorMsg, procErr, h0, h1, h2,
          hpp, hv, h4, hf]
  · intro ctx r h0 h1 h2 hpp
    simp only [procCheck, Bool.not_eq_true'] at h0 h1 h2
    simp [processSignedCommand, ProcOutcome.errorMsg, h0, h1, h2, hpp, JVal.isNull]

/-- Counterexample to C2 as stated: for the request carrying the
well-signed, authorized message `"null"`, the first failing check among the
six is the required-fields check (index 4), yet the returned error is the
TypeError text, which is none of the six check messages. -/
theorem C2_counterexample :
    (processSignedCommand c2nullCtx c2nullReq).errorMsg = some nullAccessError
    ∧ procCheck c2nullCtx c2nullReq 0 = true
    ∧ procCheck c2nullCtx c2nullReq 1 = true
    ∧ procCheck c2nullCtx c2nullReq 2 = true
    ∧ procCheck c2nullCtx c2nullReq 3 = true
    ∧ procCheck c2nullCtx c2nullReq 4 = false
    ∧ (∀ i : Fin 6, nullAccessError ≠ procErr i) := by
  decide

/-- Witness for C2 on a request failing only the freshness check (index 5):
the returned error is the freshness message. -/
theorem C2_witness :
    (processSignedCommand c2ctx c2req).errorMsg = some (procErr 5) :=
  C2_check_order.1 c2ctx c2req 5
    (fun v hv => by
      rw [show c2ctx.parseJson c2req.msg = some c2parsed from rfl] at hv
      cases hv
      rfl)
    (by decide)
    (by decide)

/-! ## C3 -/

theorem validateGiftAt_ok (i : Nat) (x : JVal) (q : Rat)
    (h : validateGiftAt i x = .ok q) : 0 < q ∧ q ≤ 1000000000 := by
  simp only [validateGiftAt] at h
  cases ht : toNumber x with
  | none => simp only [ht] at h; simp at h
  | some q' =>
    simp only [ht] at h
    by_cases h1 : q' ≤ 0
    · rw [if_pos h1] at h; simp at h
    · rw [if_neg h1] at h
      by_cases h2 : q' > 1000000000
      · rw [if_pos h2] at h; simp at h
      · rw [if_neg h2] at h
        simp only [Except.ok.injEq] at h
        subst h
        exact ⟨lt_of_not_le h1, le_of_not_lt h2⟩

/-- **C3** (corrected, first half): every parameter object the part_000
validator `validateSimpleSpendParams` accepts yields gifts that are strictly
positive and at most 1e9, in a list exactly as long as the recipients
list. -/
theorem C3_part000_invariant (p : JVal) (v : ValidatedSimpleSpendParams)
    (h : validateSimpleSpendParams p = .ok v) :
    (∀ g ∈ v.gifts, 0 < g ∧ g ≤ 1000000000)
    ∧ v.gifts.length = v.recipients.length := by
  simp only [validateSimpleSpendParams] at h
  by_cases h1 : (!(jTruthy p && isObjectLike p)) = true
  · rw [if_pos h1] at h; simp at h
  · rw [if_neg h1] at h
    cases h2 : asArray (jget p "recipients") with
    | none => simp only [h2] at h; simp at h
    | some rs =>
      simp only [h2] at h
      by_cases h3 : rs.length = 0
      · rw [if_pos h3] at h; simp at h
      · rw [if_neg h3] at h
        by_cases h4 : rs.length > 50
        · rw [if_pos h4] at h; simp at h
        · rw [if_neg h4] at h
          cases h5 : mapIdxE validateRecipientAt 0 rs with
          | error e => simp only [h5] at h; simp at h
          | ok vrs =>
            simp only [h5] at h
            cases h6 : asArray (jget p "gifts") with
            | none => simp only [h6] at h; simp at h
            | some gs =>
              simp only [h6] at h
              by_cases h7 : gs.length = 0
              · rw [if_pos h7] at h; simp at h
              · rw [if_neg h7] at h
                by_cases h8 : gs.length ≠ rs.length
                · rw [if_pos h8] at h; simp at h
                · rw [if_neg h8] at h
                  cases h9 : mapIdxE validateGiftAt 0 gs with
                  | error e => simp only [h9] at h; simp at h
                  | ok vgs =>
                    simp only [h9] at h
                    cases h10 : asArray (jget p "names") with
                    | none => simp only [h10] at h; simp at h
                    | some ns =>
                      simp only [h10] at h
                      cases h11 : mapIdxE validateNamesAt 0 ns with
                      | error e => simp only [h11] at h; simp at h
                      | ok vns =>
                        simp only [h11] at h
                        cases h12 : toNumber (jget p "fee") with
                        | none => simp only [h12] at h; simp at h
                        | some f =>
                          simp only [h12] at h
                          by_cases h13 : f.den = 1 ∧ 1 ≤ f ∧ f ≤ 1000
                          · rw [if_pos h13] at h
                            simp only [Except.ok.injEq] at h
                            subst h
                            constructor
                            · intro g hg
                              obtain ⟨j, x, _, hok⟩ :=
                                mapIdxE_ok_mem validateGiftAt 0 gs vgs h9 g hg
                              exact validateGiftAt_ok j x g hok
                            · have hlg := mapIdxE_ok_length validateGiftAt 0 gs vgs h9
                              have hlr :=
                                mapIdxE_ok_length validateRecipientAt 0 rs vrs h5
                              simp only [not_not] at h8
                              simp only [hlg, hlr, h8]
                          · rw [if_neg h13] at h; simp at h

set_option maxRecDepth 100000 in
/-- Counterexample to C3 as stated: the part_001 validator
`validateSimpleSpendParamsWithUTXOs` (explicit-gifts path) accepts a params
object with one recipient but two gifts, one of them 2e9 — neither the
length match nor the billion cap holds for it. -/
theorem C3_counterexample :
    okGifts (validateSimpleSpendParamsWithUTXOs [] c3badParams) =
      some [2000000000, 7]
    ∧ okRecipientCount (validateSimpleSpendParamsWithUTXOs [] c3badParams) = some 1
    ∧ ([(2000000000 : Rat), 7].length = 1) = False
    ∧ ((2000000000 : Rat) ≤ 1000000000) = False := by
  refine ⟨by decide, by decide, by simp, by decide⟩

set_option maxRecDepth 100000 in
/-- Witness for C3 (amended) on concretely accepted params. -/
theorem C3_witness : c3okValidated.gifts.length = c3okValidated.recipients.length :=
  (C3_part000_invariant c3okParams c3okValidated (by rfl)).2

/-! ## C5 and C6 -/

theorem selectLoop_total :
    ∀ (l : List ParsedNote) (req acc : Rat),
      (selectLoop req acc l).2 = acc + sumAssets (selectLoop req acc l).1 := by
  intro l
  induction l with
  | nil => intro req acc; simp [selectLoop, sumAssets]
  | cons n ns ih =>
    intro req acc
    by_cases hc : req ≤ acc + n.assets
    · simp [selectLoop, if_pos hc, sumAssets]
    · simp only [selectLoop, if_neg hc]
      rw [ih]
      simp [sumAssets]
      ring

theorem selectLoop_reaches :
    ∀ (l : List ParsedNote) (req acc : Rat),
      req ≤ acc + sumAssets l → req ≤ (selectLoop req acc l).2 := by
  intro l
  induction l with
  | nil => intro req acc h; simpa [selectLoop, sumAssets] using h
  | cons n ns ih =>
    intro req acc h
    by_cases hc : req ≤ acc + n.assets
    · simpa [selectLoop, if_pos hc] using hc
    · simp only [selectLoop, if_neg hc]
      apply ih
      have : acc + sumAssets (n :: ns) = acc + n.assets + sumAssets ns := by
        simp [sumAssets]; ring
      rw [this] at h
      exact h

theorem selectLoop_below :
    ∀ (l : List ParsedNote) (req acc : Rat),
      (selectLoop req acc l).2 < req → (selectLoop req acc l).1 = l := by
  intro l
  induction l with
  | nil => intro req acc _; simp [selectLoop]
  | cons n ns ih =>
    intro req acc h
    by_cases hc : req ≤ acc + n.assets
    · simp only [selectLoop, if_pos hc] at h
      exact absurd hc (not_le.2 h)
    · simp only [selectLoop, if_neg hc] at h ⊢
      rw [ih _ _ h]

theorem selectLoop_le :
    ∀ (l : List ParsedNote) (req acc : Rat),
      (∀ n ∈ l, 0 ≤ n.assets) → (selectLoop req acc l).2 ≤ acc + sumAssets l := by
  intro l
  induction l with
  | nil => intro req acc _; simp [selectLoop, sumAssets]
  | cons n ns ih =>
    intro req acc hnn
    have hsum : 0 ≤ sumAssets ns := by
      unfold sumAssets
      apply List.sum_nonneg
      intro q hq
      obtain ⟨m, hm, rfl⟩ := List.mem_map.1 hq
      exact hnn m (List.mem_cons_of_mem _ hm)
    by_cases hc : req ≤ acc + n.assets
    · simp only [selectLoop, if_pos hc]
      have : acc + sumAssets (n :: ns) = acc + n.assets + sumAssets ns := by
        simp [sumAssets]; ring
      rw [this]
      linarith
    · simp only [selectLoop, if_neg hc]
      have := ih req (acc + n.assets) (fun m hm => hnn m (List.mem_cons_of_mem _ hm))
      have heq : acc + sumAssets (n :: ns) = acc + n.assets + sumAssets ns := by
        simp [sumAssets]; ring
      rw [heq]
      exact this

theorem selectLoop_sublist :
    ∀ (l : List ParsedNote) (req acc : Rat), List.Sublist (selectLoop req acc l).1 l := by
  intro l
  induction l with
  | nil => intro req acc; simp [selectLoop]
  | cons n ns ih =>
    intro req acc
    by_cases hc : req ≤ acc + n.assets
    · simp only [selectLoop, if_pos hc]
      exact (List.nil_sublist ns).cons₂ n
    · simp only [selectLoop, if_neg hc]
      exact (ih req (acc + n.assets)).cons₂ n

theorem insNoteDesc_perm (n : ParsedNote) :
    ∀ l : List ParsedNote, List.Perm (insNoteDesc n l) (n :: l) := by
  intro l
  induction l with
  | nil => simp [insNoteDesc]
  | cons m ms ih =>
    by_cases hc : m.assets ≤ n.assets
    · simp [insNoteDesc, if_pos hc]
    · simp only [insNoteDesc, if_neg hc]
      exact (ih.cons m).trans (List.Perm.swap n m ms)

theorem sortNotesDesc_perm : ∀ l : List ParsedNote, List.Perm (sortNotesDesc l) l := by
  intro l
  induction l with
  | nil => simp [sortNotesDesc]
  | cons n ns ih =>
    have : sortNotesDesc (n :: ns) = insNoteDesc n (sortNotesDesc ns) := rfl
    rw [this]
    exact (insNoteDesc_perm n (sortNotesDesc ns)).trans (ih.cons n)

theorem sumAssets_sortNotesDesc (l : List ParsedNote) :
    sumAssets (sortNotesDesc l) = sumAssets l :=
  List.Perm.sum_eq ((sortNotesDesc_perm l).map _)

/-- **C5** (confirmed): `getNotesEqualTo` requires `amountNock * 65536 + 10`
assets; on a note set (with the parser's nonnegative assets) totalling at
least the requirement it succeeds with a sub-multiset of the notes whose
recorded total is exactly the selection's asset sum and reaches the
requirement; on a note set totalling less it fails with the
insufficient-balance error. -/
theorem C5_coin_selection (amountNock : Rat) (notes : List ParsedNote)
    (hnn : ∀ n ∈ notes, 0 ≤ n.assets) :
    (amountNock * 65536 + 10 ≤ sumAssets notes →
      (getNotesEqualTo amountNock notes).isOk = true
      ∧ ∀ sel tot, getNotesEqualTo amountNock notes = .ok (sel, tot) →
          List.Subperm sel notes ∧ tot = sumAssets sel ∧ amountNock * 65536 + 10 ≤ tot)
    ∧ (sumAssets notes < amountNock * 65536 + 10 →
        getNotesEqualTo amountNock notes =
          .error (insufficientMsg (amountNock * 65536 + 10) amountNock
            (sumAssets notes))) := by
  constructor
  · intro hge
    have hreach : amountNock * 65536 + 10 ≤
        (selectLoop (amountNock * 65536 + 10) 0 (sortNotesDesc notes)).2 := by
      apply selectLoop_reaches
      rw [zero_add, sumAssets_sortNotesDesc]
      exact hge
    have hok : getNotesEqualTo amountNock notes =
        .ok (selectLoop (amountNock * 65536 + 10) 0 (sortNotesDesc notes)) := by
      simp only [getNotesEqualTo]
      rw [if_neg (not_lt.2 hreach)]
    refine ⟨by rw [hok]; rfl, ?_⟩
    intro sel tot h
    rw [hok] at h
    injection h with h'
    have hfst := congrArg Prod.fst h'
    have hsnd := congrArg Prod.snd h'
    dsimp at hfst hsnd
    subst hfst
    subst hsnd
    refine ⟨?_, ?_, hreach⟩
    · exact ((selectLoop_sublist _ _ _).subperm).trans (sortNotesDesc_perm notes).subperm
    · have := selectLoop_total (sortNotesDesc notes) (amountNock * 65536 + 10) 0
      rwa [zero_add] at this
  · intro hlt
    have hle : (selectLoop (amountNock * 65536 + 10) 0 (sortNotesDesc notes)).2 ≤
        sumAssets notes := by
      have h := selectLoop_le (sortNotesDesc notes) (amountNock * 65536 + 10) 0
        (fun n hn => hnn n ((sortNotesDesc_perm notes).subset hn))
      rwa [zero_add, sumAssets_sortNotesDesc] at h
    have hbelow : (selectLoop (amountNock * 65536 + 10) 0 (sortNotesDesc notes)).2 <
        amountNock * 65536 + 10 := lt_of_le_of_lt hle hlt
    have htot : (selectLoop (amountNock * 65536 + 10) 0 (sortNotesDesc notes)).2 =
        sumAssets notes := by
      have h1 := selectLoop_total (sortNotesDesc notes) (amountNock * 65536 + 10) 0
      rw [selectLoop_below _ _ _ hbelow, zero_add, sumAssets_sortNotesDesc] at h1
      exact h1
    simp only [getNotesEqualTo]
    rw [if_pos hbelow, htot]

/-- Witness for C5: one NOCK against the two demo notes succeeds. -/
theorem C5_witness : (getNotesEqualTo 1 [noteA, noteB]).isOk = true :=
  ((C5_coin_selection 1 [noteA, noteB] (by decide)).1 (by decide)).1

theorem giftsLoop_sum :
    ∀ (l : List ParsedNote) (r : Rat), l ≠ [] → (giftsLoop r l).sum = r := by
  intro l
  induction l with
  | nil => intro r h; exact absurd rfl h
  | cons n ns ih =>
    intro r _
    cases ns with
    | nil => simp [giftsLoop]
    | cons m ms =>
      by_cases hle : n.assets ≤ r
      · simp only [giftsLoop, if_pos hle, List.sum_cons]
        rw [ih (r - n.assets) (by simp)]
        ring
      · simp only [giftsLoop, if_neg hle, List.sum_cons]
        rw [ih 0 (by simp)]
        ring

/-- **C6** (confirmed): for every non-empty selection, the gifts array sums
exactly to `amountNock * 65536 + fee * 65536`, whatever the notes' actual
asset values. -/
theorem C6_gifts_sum (sel : List ParsedNote) (amountNock fee : Rat)
    (h : sel ≠ []) :
    (buildGiftsArray sel amountNock fee).sum = amountNock * 65536 + fee * 65536 := by
  simp only [buildGiftsArray]
  exact giftsLoop_sum sel _ h

/-- Witness for C6 on a single note whose value differs from the spend. -/
theorem C6_witness :
    (buildGiftsArray [noteA] 1 1).sum = 1 * 65536 + 1 * 65536 :=
  C6_gifts_sum [noteA] 1 1 (by simp)

/-! ## C8 -/

set_option maxRecDepth 400000 in
/-- **C8** (confirmed): the simple-spend validation boundaries.  An address
is valid exactly when its length is in `[150, 156]`, every character is in
the base58 alphabet, and the decoded byte length is in `[110, 115]` (hence
lengths 149 and 157 are rejected); fees 1 and 1000 are accepted while 0,
1001 and the non-integer 1/2 are rejected; 50 recipients are accepted while
51 and 0 are rejected. -/
theorem C8_validation_boundaries :
    (∀ s : String, isValidAddressStr s = true ↔
      (150 ≤ s.length ∧ s.length ≤ 156
       ∧ (s.data.all fun c => (idxOf c base58Chars).isSome) = true
       ∧ ∃ n, bs58DecodeLen s = some n ∧ 110 ≤ n ∧ n ≤ 115))
    ∧ (validateSimpleSpendParams (feeParams (.jnum 1))).isOk = true
    ∧ (validateSimpleSpendParams (feeParams (.jnum 1000))).isOk = true
    ∧ exceptErr (validateSimpleSpendParams (feeParams (.jnum 0))) =
        some "Invalid fee: must be integer between 1-1000"
    ∧ exceptErr (validateSimpleSpendParams (feeParams (.jnum 1001))) =
        some "Invalid fee: must be integer between 1-1000"
    ∧ exceptErr (validateSimpleSpendParams (feeParams (.jnum (Rat.mk' 1 2)))) =
        some "Invalid fee: must be integer between 1-1000"
    ∧ (validateSimpleSpendParams (nRecipParams 50)).isOk = true
    ∧ exceptErr (validateSimpleSpendParams (nRecipParams 51)) =
        some "Too many recipients: maximum 50 allowed"
    ∧ exceptErr (validateSimpleSpendParams (nRecipParams 0)) =
        some "Invalid recipients: must be non-empty array"
    ∧ isValidAddressStr (String.mk (List.replicate 149 '2')) = false
    ∧ isValidAddressStr (String.mk (List.replicate 157 '2')) = false
    ∧ isValidAddressStr addr155 = true := by
  refine ⟨?_, by decide, by decide, by decide, by decide, by decide, by decide,
    by decide, by decide, by decide, by decide, by decide⟩
  intro s
  constructor
  · intro h
    simp only [isValidAddressStr] at h
    by_cases h0 : s = ""
    · rw [if_pos h0] at h; exact absurd h (by simp)
    · rw [if_neg h0] at h
      by_cases h1 : (decide (s.length < 150) || decide (s.length > 156)) = true
      · rw [if_pos h1] at h; exact absurd h (by simp)
      · rw [if_neg h1] at h
        simp only [Bool.or_eq_true, decide_eq_true_eq, not_or, not_lt] at h1
        obtain ⟨hlo, hhi⟩ := h1
        by_cases h2 : (s.data.all fun c => (idxOf c base58Chars).isSome) = true
        · rw [if_neg (by simp [h2])] at h
          cases h3 : bs58DecodeLen s with
          | none => rw [h3] at h; exact absurd h (by simp)
          | some len =>
            rw [h3] at h
            simp only [decide_eq_true_eq] at h
            exact ⟨hlo, hhi, h2, len, rfl, h⟩
        · rw [if_pos (by simp [Bool.not_eq_true] at h2 ⊢; exact h2)] at h
          exact absurd h (by simp)
  · rintro ⟨hlo, hhi, hall, len, hdec, hl1, hl2⟩
    simp only [isValidAddressStr]
    rw [if_neg (by intro he; rw [he] at hlo; simp at hlo)]
    rw [if_neg (by simp; omega)]
    rw [if_neg (by simp [hall])]
    rw [hdec]
    simp [hl1, hl2]

/-! ## C9 -/

theorem noteGuard_props (n : PartialNote) (h : noteGuard n = true) :
    n.first_name.isSome = true ∧ n.last_name.isSome = true
    ∧ n.assets.isSome = true
    ∧ n.first_name.getD "" ≠ "" ∧ n.last_name.getD "" ≠ "" := by
  simp only [noteGuard, Bool.and_eq_true] at h
  obtain ⟨⟨hf, hl⟩, ha⟩ := h
  cases hfn : n.first_name with
  | none => rw [hfn] at hf; simp at hf
  | some s =>
    cases hln : n.last_name with
    | none => rw [hln] at hl; simp at hl
    | some t =>
      rw [hfn] at hf
      rw [hln] at hl
      simp only [bne_iff_ne, ne_eq] at hf hl
      simp [hfn, hln, ha, hf, hl]

/-- **C9** (confirmed): whatever the matcher behaviour and input text, every
record `parseNotesOutput` returns has its `first_name`, `last_name` and
`assets` fields populated (the names non-empty); a block in which a required
field was not recognized contributes no record. -/
theorem C9_parser_required_fields (m : NoteMatchers) (output : String) :
    ∀ n ∈ parseNotesOutput m output,
      n.first_name.isSome = true ∧ n.last_name.isSome = true
      ∧ n.assets.isSome = true
      ∧ n.first_name.getD "" ≠ "" ∧ n.last_name.getD "" ≠ "" := by
  simp only [parseNotesOutput]
  induction noteBlocks output with
  | nil => intro n hn; exact absurd hn (by simp)
  | cons b bs ih =>
    intro n hn
    simp only [List.foldr_cons] at hn
    by_cases hb : jsTrim b.data = []
    · rw [if_pos hb] at hn
      exact ih n hn
    · rw [if_neg hb] at hn
      by_cases hg : noteGuard (buildNote m b) = true
      · rw [if_pos hg] at hn
        rcases List.mem_cons.1 hn with rfl | hn'
        · exact noteGuard_props _ hg
        · exact ih n hn'
      · rw [if_neg hg] at hn
        exact ih n hn

/-- Witness for C9: the concrete matchers keep exactly the complete block,
and the theorem applies to the record they produce. -/
theorem C9_witness :
    c9note.first_name.isSome = true ∧ c9note.last_name.isSome = true
    ∧ c9note.assets.isSome = true
    ∧ c9note.first_name.getD "" ≠ "" ∧ c9note.last_name.getD "" ≠ "" :=
  C9_parser_required_fields c9m c9out c9note (by decide)

/-! ## C4 -/

theorem confirmLoop_confirmed (env : ChainEnv) (swap : SwapTransaction) :
    ∀ (bs : List Rat) (b : Rat) (txs : List BlockTx) (tx : BlockTx),
      b ∈ bs → env.blockTxs b = some txs → tx ∈ txs →
      txMatches swap.recipient swap.amount tx = true →
      (confirmLoop env swap bs).status = .sentConfirmed
      ∧ (confirmLoop env swap bs).tx_id.isSome = true := by
  intro bs
  induction bs with
  | nil => intro b txs tx hb; exact absurd hb (by simp)
  | cons b0 bs ih =>
    intro b txs tx hb htxs htx hm
    rcases List.mem_cons.1 hb with rfl | hb'
    · simp only [confirmLoop, htxs]
      have hsome : (txs.find? (txMatches swap.recipient swap.amount)).isSome = true := by
        rw [List.find?_isSome]
        exact ⟨tx, htx, hm⟩
      cases hfind : txs.find? (txMatches swap.recipient swap.amount) with
      | none => rw [hfind] at hsome; simp at hsome
      | some t => simp [hfind]
    · cases hb0 : env.blockTxs b0 with
      | none =>
        simp only [confirmLoop, hb0]
        exact ih b txs tx hb' htxs htx hm
      | some txs0 =>
        simp only [confirmLoop, hb0]
        cases hfind : txs0.find? (txMatches swap.recipient swap.amount) with
        | none => exact ih b txs tx hb' htxs htx hm
        | some t => simp

theorem confirmLoop_no_match (env : ChainEnv) (swap : SwapTransaction) :
    ∀ bs : List Rat,
      (∀ b ∈ bs, ∀ txs, env.blockTxs b = some txs →
        ∀ tx ∈ txs, txMatches swap.recipient swap.amount tx = false) →
      confirmLoop env swap bs = swap := by
  intro bs
  induction bs with
  | nil => intro _; rfl
  | cons b0 bs ih =>
    intro hno
    cases hb0 : env.blockTxs b0 with
    | none =>
      simp only [confirmLoop, hb0]
      exact ih fun b hb txs htxs tx htx =>
        hno b (List.mem_cons_of_mem _ hb) txs htxs tx htx
    | some txs0 =>
      simp only [confirmLoop, hb0]
      have hfind : txs0.find? (txMatches swap.recipient swap.amount) = none := by
        rw [List.find?_eq_none]
        intro tx htx
        simp [hno b0 (List.mem_cons_self ..) txs0 hb0 tx htx]
      rw [hfind]
      exact ih fun b hb txs htxs tx htx =>
        hno b (List.mem_cons_of_mem _ hb) txs htxs tx htx

theorem notePhase_sameCore (env : ChainEnv) (swap : SwapTransaction) :
    sameCore (notePhase env swap) swap := by
  unfold notePhase
  split
  · split
    · exact ⟨rfl, rfl, rfl, rfl, rfl, rfl, rfl⟩
    · split
      · exact ⟨rfl, rfl, rfl, rfl, rfl, rfl, rfl⟩
      · dsimp only
        split
        · exact ⟨rfl, rfl, rfl, rfl, rfl, rfl, rfl⟩
        · exact ⟨rfl, rfl, rfl, rfl, rfl, rfl, rfl⟩
  · exact ⟨rfl, rfl, rfl, rfl, rfl, rfl, rfl⟩

theorem confirmLoop_sameCore (env : ChainEnv) (swap : SwapTransaction) :
    ∀ bs : List Rat, sameCore (confirmLoop env swap bs) swap := by
  intro bs
  induction bs with
  | nil => exact ⟨rfl, rfl, rfl, rfl, rfl, rfl, rfl⟩
  | cons b0 bs ih =>
    cases hb0 : env.blockTxs b0 with
    | none => simp only [confirmLoop, hb0]; exact ih
    | some txs0 =>
      simp only [confirmLoop, hb0]
      cases txs0.find? (txMatches swap.recipient swap.amount) with
      | none => exact ih
      | some t => exact ⟨rfl, rfl, rfl, rfl, rfl, rfl, rfl⟩

theorem confirmPhase_sameCore (env : ChainEnv) (swap : SwapTransaction) :
    sameCore (confirmPhase env swap) swap := by
  unfold confirmPhase
  split
  · split
    · exact ⟨rfl, rfl, rfl, rfl, rfl, rfl, rfl⟩
    · rename_i h hheq
      have hcore : ∀ bs, sameCore (confirmLoop env swap bs) swap :=
        confirmLoop_sameCore env swap
      dsimp only
      split <;> split <;> exact hcore _
  · exact ⟨rfl, rfl, rfl, rfl, rfl, rfl, rfl⟩

theorem stepSwap_sameCore (env : ChainEnv) (swap : SwapTransaction) :
    sameCore (stepSwap env swap) swap := by
  obtain ⟨a1, b1, c1, d1, e1, f1, g1⟩ := confirmPhase_sameCore env (notePhase env swap)
  obtain ⟨a2, b2, c2, d2, e2, f2, g2⟩ := notePhase_sameCore env swap
  exact ⟨a1.trans a2, b1.trans b2, c1.trans c2, d1.trans d2, e1.trans e2,
    f1.trans f2, g1.trans g2⟩

/-- **C4** (corrected): the per-query transitions of the swap state machine.
From `pending`, a usable snapshot in which some recorded note has vanished
moves the swap to `sent-pending` and records the newly appeared notes as
`change_utxo`; from `sent-pending`, a matching output found in the current
block — or in the immediately preceding block, which is examined *only when
the current height exceeds the swap's initial height* — moves it to
`sent-confirmed` with `tx_id` set; otherwise three blocks without
confirmation fail it with the timeout error; `sent-confirmed` and `failed`
are terminal. -/
theorem C4_swap_state_machine :
    (∀ (env : ChainEnv) (swap : SwapTransaction)
       (currentNotes olds : List PartialNote),
       swap.status = .pending →
       env.listNotes = some currentNotes →
       swap.notes_before = some olds →
       olds ≠ [] →
       olds.all (fun o => currentNotes.any (fun c => noteTripleEq c o)) = false →
       (notePhase env swap).status = .sentPending
       ∧ (notePhase env swap).updated_at = env.now
       ∧ (currentNotes.filter (fun c => !(olds.any (fun o => noteTripleEq o c))) ≠ [] →
           (notePhase env swap).change_utxo =
             some (currentNotes.filter (fun c => !(olds.any (fun o => noteTripleEq o c))))))
    ∧ (∀ (env : ChainEnv) (swap : SwapTransaction) (h b : Rat)
         (txs : List BlockTx) (tx : BlockTx),
        swap.status = .sentPending →
        env.height = some h →
        (b = h ∨ (b = h - 1 ∧ swap.initial_block_height < h)) →
        env.blockTxs b = some txs →
        tx ∈ txs →
        txMatches swap.recipient swap.amount tx = true →
        (confirmPhase env swap).status = .sentConfirmed
        ∧ (confirmPhase env swap).tx_id.isSome = true)
    ∧ (∀ (env : ChainEnv) (swap : SwapTransaction) (h : Rat),
        swap.status = .sentPending →
        env.height = some h →
        (∀ b txs, (b = h ∨ b = h - 1) → env.blockTxs b = some txs →
          ∀ tx ∈ txs, txMatches swap.recipient swap.amount tx = false) →
        3 ≤ h - swap.initial_block_height →
        (confirmPhase env swap).status = .failed
        ∧ (confirmPhase env swap).error =
            some "Transaction not confirmed after 3 blocks")
    ∧ (∀ (env : ChainEnv) (swap : SwapTransaction),
        swap.status = .sentConfirmed ∨ swap.status = .failed →
        stepSwap env swap = swap) := by
  refine ⟨?_, ?_, ?_, ?_⟩
  · intro env swap currentNotes olds hst hln hnb hne hall
    have hcond : swap.status = SwapStatus.pending ∨ swap.status = SwapStatus.unconfirmed :=
      Or.inl hst
    simp only [notePhase, if_pos hcond, hln, hnb]
    rw [if_pos ⟨List.length_pos.2 hne, by simp [hall]⟩]
    refine ⟨rfl, rfl, ?_⟩
    intro hnew
    exact if_pos (List.length_pos.2 hnew)
  · intro env swap h b txs tx hst hh hb htxs htx hm
    simp only [confirmPhase, if_pos hst, hh]
    have hmem : b ∈ [h] ++ (if swap.initial_block_height < h then [h - 1] else []) := by
      rcases hb with rfl | ⟨rfl, hlt⟩
      · simp
      · rw [if_pos hlt]; simp
    have hloop := confirmLoop_confirmed env swap
      ([h] ++ (if swap.initial_block_height < h then [h - 1] else []))
      b txs tx hmem htxs htx hm
    rw [if_neg (by intro hc; exact hc.2 hloop.1)]
    exact hloop
  · intro env swap h hst hh hno h3
    simp only [confirmPhase, if_pos hst, hh]
    have hloop : confirmLoop env swap
        ([h] ++ (if swap.initial_block_height < h then [h - 1] else [])) = swap := by
      apply confirmLoop_no_match
      intro b hbmem txs htxs tx htx
      have hbh : b = h ∨ b = h - 1 := by
        rcases List.mem_append.1 hbmem with h1 | h2
        · simp at h1; exact Or.inl h1
        · by_cases hlt : swap.initial_block_height < h
          · rw [if_pos hlt] at h2; simp at h2; exact Or.inr h2
          · rw [if_neg hlt] at h2; exact absurd h2 (by simp)
      exact hno b txs hbh htxs tx htx
    rw [hloop]
    rw [if_pos ⟨h3, by rw [hst]; simp⟩]
    exact ⟨rfl, rfl⟩
  · intro env swap hterm
    have hnp : notePhase env swap = swap := by
      unfold notePhase
      rw [if_neg (by rcases hterm with h | h <;> simp [h])]
    have hcp : confirmPhase env swap = swap := by
      unfold confirmPhase
      rw [if_neg (by rcases hterm with h | h <;> simp [h])]
    unfold stepSwap
    rw [hnp, hcp]

/-- Counterexample to C4 as stated: a `sent-pending` swap whose confirming
transaction sits in the immediately preceding block is *not* confirmed when
the chain height still equals the swap's initial height, because the code
then queries only the current block. -/
theorem C4_counterexample :
    c4swapSent.status = .sentPending
    ∧ c4envPrev.height = some 100
    ∧ c4envPrev.blockTxs (100 - 1) = some [c4txMatch]
    ∧ txMatches c4swapSent.recipient c4swapSent.amount c4txMatch = true
    ∧ stepSwap c4envPrev c4swapSent = c4swapSent
    ∧ (stepSwap c4envPrev c4swapSent).status ≠ .sentConfirmed := by
  decide

/-- Witness for C4 (amended), first transition: the demo snapshot moves the
pending swap to `sent-pending`. -/
theorem C4_witness : (notePhase c4envNotes c4swapPending).status = .sentPending :=
  (C4_swap_state_machine.1 c4envNotes c4swapPending [c4newNote] [c4oldNote]
    rfl rfl rfl (by simp) (by decide)).1

/-! ## C10 -/

theorem regLookup_regSet_self :
    ∀ (reg : List (String × SwapTransaction)) (id : String)
      (s0 s2 : SwapTransaction),
      regLookup reg id = some s0 →
      regLookup (regSet reg id s2) id = some s2 := by
  intro reg
  induction reg with
  | nil => intro id s0 s2 h; simp [regLookup] at h
  | cons kv rest ih =>
    intro id s0 s2 h
    obtain ⟨k, v⟩ := kv
    by_cases hk : k = id
    · simp only [regSet, if_pos hk, regLookup]
    · simp only [regLookup, if_neg hk] at h
      simp only [regSet, if_neg hk, regLookup, if_neg hk]
      exact ih id s0 s2 h

theorem regLookup_regSet_other :
    ∀ (reg : List (String × SwapTransaction)) (id k : String)
      (s2 : SwapTransaction), k ≠ id →
      regLookup (regSet reg id s2) k = regLookup reg k := by
  intro reg
  induction reg with
  | nil => intro id k s2 _; rfl
  | cons kv rest ih =>
    intro id k s2 hne
    obtain ⟨k0, v⟩ := kv
    by_cases hk0 : k0 = id
    · simp only [regSet, if_pos hk0, regLookup]
      rw [if_neg (by rw [hk0]; exact fun h => hne h.symm),
        if_neg (by rw [hk0]; exact fun h => hne h.symm)]
    · simp only [regSet, if_neg hk0, regLookup]
      by_cases hkk : k0 = k
      · rw [if_pos hkk, if_pos hkk]
      · rw [if_neg hkk, if_neg hkk]
        exact ih id k s2 hne

/-- **C10** (confirmed): a status query for an unknown id leaves the
registry unchanged; for a known id it replaces only that entry by its
stepped value, leaving every other entry untouched, and the step itself
never changes `swap_id`, `recipient`, `amount`, `fee`, `created_at`,
`initial_block_height` or `notes_before` (it assigns only `status`,
`updated_at`, `change_utxo`, `tx_id`, `confirmed_block_height` and
`error`). -/
theorem C10_swap_status_frame :
    (∀ (env : ChainEnv) (reg : List (String × SwapTransaction)) (id : String),
       regLookup reg id = none → getSwapStatusStep env reg id = reg)
    ∧ (∀ (env : ChainEnv) (reg : List (String × SwapTransaction)) (id k : String),
        k ≠ id →
        regLookup (getSwapStatusStep env reg id) k = regLookup reg k)
    ∧ (∀ (env : ChainEnv) (reg : List (String × SwapTransaction)) (id : String)
         (s : SwapTransaction),
        regLookup reg id = some s →
        regLookup (getSwapStatusStep env reg id) id = some (stepSwap env s))
    ∧ (∀ (env : ChainEnv) (s : SwapTransaction), sameCore (stepSwap env s) s) := by
  refine ⟨?_, ?_, ?_, fun env s => stepSwap_sameCore env s⟩
  · intro env reg id h
    simp only [getSwapStatusStep, h]
  · intro env reg id k hne
    simp only [getSwapStatusStep]
    cases h : regLookup reg id with
    | none => rfl
    | some s => exact regLookup_regSet_other reg id k (stepSwap env s) hne
  · intro env reg id s h
    simp only [getSwapStatusStep, h]
    exact regLookup_regSet_self reg id s (stepSwap env s) h

/-- Witness for C10: an unknown swap id leaves the demo registry
unchanged. -/
theorem C10_witness : getSwapStatusStep c10env c10reg "unknown" = c10reg :=
  C10_swap_status_frame.1 c10env c10reg "unknown" (by decide)
